import Mathlib

/-!
Shallow embedding of the highlight-selection-and-assembly pipeline of
`src/streamlit_app.py` (the Gemini AI video editor).

Conventions:
- Python floats are modelled as rationals (`ℚ`).
- The remote file-state polling loop is modelled with an explicit poll
  trace (`Nat → FState`, the state returned by the i-th `genai.get_file`
  call) and a fuel parameter; `none` means the loop has not returned
  within `fuel` polls (so `∀ fuel, none` models an infinite wait).
- Fallible steps return `Option` / `Except`; exception handlers in the
  source become explicit case analysis on those values.
-/

namespace StreamlitApp

/-- State of a remote Gemini file as reported by `genai.get_file`:
the source compares `file.state.name` against the strings
`"PROCESSING"` and `"ACTIVE"`; any other terminal name (`"FAILED"`) is
treated as a failure (lines 43-48). -/
inductive FState where
  | processing
  | active
  | failed
deriving DecidableEq

/-- Whether a state is `"ACTIVE"` (the check `file.state.name != "ACTIVE"`
on line 46, negated). -/
def isActiveState : FState → Bool
  | FState.active => true
  | _ => false

/-- The fixed poll interval: `time.sleep(5)` on line 44. -/
def pollIntervalSeconds : Nat := 5

/-- The inner polling loop of `wait_for_files_active` (lines 42-45) for a
single file.  `trace i` is the state returned by the i-th `genai.get_file`
call; the result pairs the readiness verdict with the index of the first
non-PROCESSING poll, which equals the number of `time.sleep` calls made.
`none` means the loop is still running after `fuel` polls. -/
def waitLoop (trace : Nat → FState) : Nat → Nat → Option (Bool × Nat)
  | 0, _ => none
  | fuel + 1, i =>
    if trace i = FState.processing then waitLoop trace fuel (i + 1)
    else some (isActiveState (trace i), i)

/-- `wait_for_files_active` (lines 39-49): polls each file in turn,
returns `False` at the first file whose terminal state is not ACTIVE,
`True` when every file became ACTIVE. -/
def waitForFilesActive (traces : List (Nat → FState)) (fuel : Nat) : Option Bool :=
  match traces with
  | [] => some true
  | tr :: rest =>
    match waitLoop tr fuel 0 with
    | none => none
    | some (true, _) => waitForFilesActive rest fuel
    | some (false, _) => some false

/-- A model as returned by `genai.list_models()` (name plus its
`supported_generation_methods`). -/
structure MModel where
  name : String
  supportedGenerationMethods : List String

/-- The capability string checked on line 177. -/
def genMethod : String := "generateContent"

/-- The empty string (used to model Python truthiness of strings). -/
def emptyStr : String := ""

/-- Lines 174-178: names of the models whose
`supported_generation_methods` contain `"generateContent"`. -/
def availableModelsOf (models : List MModel) : List String :=
  (models.filter (fun m => m.supportedGenerationMethods.contains genMethod)).map
    (fun m => m.name)

/-- Char-list version of "is a prefix of" (used to model Python's
substring test `keyword in m`). -/
def charsLead : List Char → List Char → Bool
  | [], _ => true
  | _ :: _, [] => false
  | a :: as, b :: bs => (a == b) && charsLead as bs

/-- `charsSub needle hay` : `needle` occurs contiguously in `hay`. -/
def charsSub (needle : List Char) : List Char → Bool
  | [] => charsLead needle []
  | b :: bs => charsLead needle (b :: bs) || charsSub needle bs

/-- Python's `needle in hay` on strings (line 196: `keyword in m`). -/
def strContains (hay needle : String) : Bool :=
  charsSub needle.data hay.data

/-- The priority keyword list of lines 181-190, in source order. -/
def priorityList : List String :=
  ["gemini-2.5-flash", "gemini-2.0-flash", "gemini-1.5-flash", "gemini-flash",
   "gemini-2.5-pro", "gemini-2.0-pro", "gemini-1.5-pro", "gemini-pro"]

/-- Python truthiness of `selected_model_name` / `found`
(`None` and `""` are falsy). -/
def strTruthy : Option String → Bool
  | none => false
  | some s => !(s == emptyStr)

/-- Lines 195-199: scan keywords in order; for each keyword take the first
available model containing it (`next(...)`); `if found:` uses Python
truthiness, so an empty-named match does not stop the scan. -/
def scanKeywords (avail : List String) : List String → Option String
  | [] => none
  | k :: ks =>
    let found := avail.find? (fun m => strContains m k)
    if strTruthy found then found else scanKeywords avail ks

/-- Lines 174-208: the whole model-selection block.  `none` models the
`st.stop()` error path of lines 205-208 ("cannot find any usable model",
i.e. `NoEligibleModelError`).  The two `if not selected_model_name`
checks use Python string truthiness. -/
def selectModelName (models : List MModel) (prio : List String) : Option String :=
  let avail := availableModelsOf models
  let sel1 := scanKeywords avail prio
  let sel2 :=
    if strTruthy sel1 then sel1
    else
      match avail with
      | [] => sel1
      | a :: _ => some a
  if strTruthy sel2 then sel2 else none

/-- Reference definition written from the spec's words (section 4.2):
scan keywords in order and return the first candidate whose name contains
the current keyword, with no truthiness subtlety. -/
def scanKeywordsSpec (avail : List String) : List String → Option String
  | [] => none
  | k :: ks =>
    match avail.find? (fun m => strContains m k) with
    | some m => some m
    | none => scanKeywordsSpec avail ks

/-- Reference definition written from the spec's words (section 4.2):
filter to eligible candidates, return the first keyword match, else the
first eligible candidate, else fail (`none` = `NoEligibleModelError`).
Used to compare the source's selection block against the spec. -/
def selectModelSpec (models : List MModel) (prio : List String) : Option String :=
  let avail := availableModelsOf models
  match scanKeywordsSpec avail prio with
  | some m => some m
  | none => avail.head?

/-- A decoded JSON value, the result of `json.loads` (line 224). -/
inductive Json where
  | num (q : ℚ)
  | str (s : String)
  | bool (b : Bool)
  | null
  | arr (elems : List Json)
  | obj (fields : List (String × Json))

/-- Digit list to number, most significant first. -/
def digitsToNum (l : List Char) : ℚ :=
  l.foldl (fun acc c => acc * 10 + ((c.toNat - 48 : Nat) : ℚ)) 0

/-- Unsigned body of a Python float literal: `digits [. digits]` with at
least one digit.  (Model boundary: Python's `float(str)` additionally
accepts exponents, `inf`/`nan` and underscores; those forms are outside
this model and treated as conversion failures.) -/
def pyFloatCore (l : List Char) : Option ℚ :=
  let intPart := l.takeWhile Char.isDigit
  let rest := l.dropWhile Char.isDigit
  match rest with
  | [] => if intPart.isEmpty then none else some (digitsToNum intPart)
  | c :: frac =>
    if (c == '.') && frac.all Char.isDigit && !(intPart.isEmpty && frac.isEmpty) then
      some (digitsToNum intPart + digitsToNum frac / (10 : ℚ) ^ frac.length)
    else none

/-- Python `float(s)` on a string: strip whitespace, optional sign,
then the unsigned body. -/
def pyFloatOfString (s : String) : Option ℚ :=
  match s.trim.data with
  | [] => none
  | '+' :: rest => pyFloatCore rest
  | '-' :: rest => (pyFloatCore rest).map (fun q => -q)
  | l => pyFloatCore l

/-- Python `float(x)` on a decoded JSON value (`float(t["start"])`,
lines 229 and 256): numbers and booleans convert, numeric strings parse,
everything else raises `TypeError` (modelled as `none`). -/
def pyFloat : Json → Option ℚ
  | Json.num q => some q
  | Json.bool b => some (if b then 1 else 0)
  | Json.str s => pyFloatOfString s
  | _ => none

/-- The `"start"` key. -/
def fieldStart : String := "start"

/-- The `"end"` key. -/
def fieldEnd : String := "end"

/-- Python dict lookup `t[key]` on a dict built by `json.loads`
(later duplicate keys override earlier ones, hence the reverse). -/
def dictGet (fields : List (String × Json)) (key : String) : Option Json :=
  (fields.reverse.find? (fun f => f.1 == key)).map (fun f => f.2)

/-- Python iteration `for t in timestamps` (line 228): lists yield their
elements, strings their characters, dicts their keys; numbers, booleans
and `None` raise `TypeError` (modelled as `none`). -/
def asIterable : Json → Option (List Json)
  | Json.arr l => some l
  | Json.str s => some (s.data.map (fun c => Json.str c.toString))
  | Json.obj fields => some (fields.map (fun f => Json.str f.1))
  | _ => none

/-- `float(t["end"])` and `float(t["start"])` for one entry (line 229):
fails (`KeyError` / `TypeError` / `ValueError`) unless the entry is an
object with convertible `start` and `end`.  Returns `(start, end)`. -/
def entryFloats : Json → Option (ℚ × ℚ)
  | Json.obj fields =>
    match (dictGet fields fieldEnd).bind pyFloat, (dictGet fields fieldStart).bind pyFloat with
    | some e, some s => some (s, e)
    | _, _ => none
  | _ => none

/-- The display loop of lines 228-233: every entry's `start`/`end` must
convert, else the first failure aborts the stage. -/
def allEntryFloats : List Json → Option (List (ℚ × ℚ))
  | [] => some []
  | t :: ts =>
    match entryFloats t, allEntryFloats ts with
    | some p, some ps => some (p :: ps)
    | _, _ => none

/-- Line 256: `start = max(0, float(t["start"]))`. -/
def clampStart (s : ℚ) : ℚ := max 0 s

/-- Line 257: `end = min(clip.duration, float(t["end"]))`. -/
def clampEnd (d e : ℚ) : ℚ := min d e

/-- The subclip selection loop of lines 255-259: clamp each entry and
keep it exactly when the clamped duration exceeds 0.5 seconds. -/
def selectSubclips (d : ℚ) : List (ℚ × ℚ) → List (ℚ × ℚ)
  | [] => []
  | p :: rest =>
    if 1 / 2 < clampEnd d p.2 - clampStart p.1 then
      (clampStart p.1, clampEnd d p.2) :: selectSubclips d rest
    else selectSubclips d rest

/-- Outcome of the parse-and-sanitize stage (lines 222-263).
`malformedOutput` is the `json.JSONDecodeError` handler of lines 237-240
("AI 思考當機了，請重試一次", user-retryable); `genericError` is any other
exception from this stage, caught by the outer handler on line 303;
`noUsableSegments` is the empty-subclip check of lines 261-263
("AI 找不到符合的片段"). -/
inductive ParseOutcome where
  | malformedOutput
  | genericError
  | noUsableSegments
  | ok (segs : List (ℚ × ℚ))
deriving DecidableEq

/-- Lines 222-263 applied to the decoded value (`none` = `json.loads`
raised `JSONDecodeError`). -/
def parseStage (decoded : Option Json) (d : ℚ) : ParseOutcome :=
  match decoded with
  | none => ParseOutcome.malformedOutput
  | some j =>
    match asIterable j with
    | none => ParseOutcome.genericError
    | some ts =>
      match allEntryFloats ts with
      | none => ParseOutcome.genericError
      | some entries =>
        match selectSubclips d entries with
        | [] => ParseOutcome.noUsableSegments
        | q :: qs => ParseOutcome.ok (q :: qs)

/-- The fence marker stripped first on line 223. -/
def fenceJson : String := "```json"

/-- The bare fence marker stripped second on line 223. -/
def fence : String := "```"

/-- Line 223: `response.text.replace("```json", "").replace("```", "").strip()`. -/
def cleanJson (s : String) : String :=
  ((s.replace fenceJson emptyStr).replace fence emptyStr).trim

/-- Lines 222-263 from the raw model text: strip fences, decode
(`decode` is the `json.loads` oracle; `none` = `JSONDecodeError`),
then validate and sanitize. -/
def parseModelOutput (decode : String → Option Json) (rawText : String) (d : ℚ) :
    ParseOutcome :=
  parseStage (decode (cleanJson rawText)) d

/-- How the `try` block of lines 140-301 ends.  Every constructor except
`success` is an error path (exception or `st.stop()`), all of which fall
through to the `finally` block. -/
inductive BodyOutcome where
  | uploadError
  | waitFailed
  | noModelFound
  | modelExecError
  | malformedOutput
  | shapeError
  | noUsableSegments
  | renderError
  | success
deriving DecidableEq

/-- The environment (remote service, filesystem, codec) one pipeline run
interacts with. -/
structure PipelineEnv where
  uploadOk : Bool
  fileTrace : Nat → FState
  fuel : Nat
  models : List MModel
  generateOk : Bool
  responseText : String
  decode : String → Option Json
  duration : ℚ
  renderOk : Bool

/-- The `try` block of lines 140-301 as one function.  The `Bool`
component records whether `genai.delete_file(video_file.name)`
(lines 296-301) was issued; that call sits at the end of the `try`
block, after the download button, so it runs only when every earlier
stage succeeded.  `none` models a body that never returns (the polling
loop still running after `fuel` polls). -/
def runBody (env : PipelineEnv) : Option (BodyOutcome × Bool) :=
  if env.uploadOk then
    match waitForFilesActive [env.fileTrace] env.fuel with
    | none => none
    | some false => some (BodyOutcome.waitFailed, false)
    | some true =>
      match selectModelName env.models priorityList with
      | none => some (BodyOutcome.noModelFound, false)
      | some _ =>
        if env.generateOk then
          match parseModelOutput env.decode env.responseText env.duration with
          | ParseOutcome.malformedOutput => some (BodyOutcome.malformedOutput, false)
          | ParseOutcome.genericError => some (BodyOutcome.shapeError, false)
          | ParseOutcome.noUsableSegments => some (BodyOutcome.noUsableSegments, false)
          | ParseOutcome.ok _ =>
            if env.renderOk then some (BodyOutcome.success, true)
            else some (BodyOutcome.renderError, false)
        else some (BodyOutcome.modelExecError, false)
  else some (BodyOutcome.uploadError, false)

/-- Result of one `os.remove` call. -/
inductive RemoveOutcome where
  | ok
  | permError
  | otherError
deriving DecidableEq

/-- One `os.remove` attempt as a fallible action. -/
def tryRemove (r : RemoveOutcome) : Except RemoveOutcome Unit :=
  match r with
  | RemoveOutcome.ok => Except.ok ()
  | e => Except.error e

/-- The deletion-with-retry of lines 320-331 (and 334-344): if the file
exists, try `os.remove`; on `PermissionError` sleep 1 second and retry
exactly once, swallowing any failure of the retry; any other exception is
also swallowed.  Returns `(number of remove attempts, slept-and-retried)`;
an `Except.error` result would model a propagated exception. -/
def removeWithRetry (present : Bool) (att : Nat → RemoveOutcome) :
    Except RemoveOutcome (Nat × Bool) :=
  if present then
    match tryRemove (att 0) with
    | Except.ok _ => Except.ok (1, false)
    | Except.error RemoveOutcome.permError =>
      match tryRemove (att 1) with
      | Except.ok _ => Except.ok (2, true)
      | Except.error _ => Except.ok (2, true)
    | Except.error _ => Except.ok (1, false)
  else Except.ok (0, false)

/-- The filesystem state the `finally` block sees. -/
structure CleanupEnv where
  tempPresent : Bool
  outputPresent : Bool
  tempAtt : Nat → RemoveOutcome
  outAtt : Nat → RemoveOutcome

/-- The `finally` block of lines 306-344 (temp-input and output-file
deletion; the `clip.close()` calls are also swallowed and tracked by no
claim). -/
def cleanupPhase (c : CleanupEnv) :
    Except RemoveOutcome (Nat × Bool) × Except RemoveOutcome (Nat × Bool) :=
  (removeWithRetry c.tempPresent c.tempAtt, removeWithRetry c.outputPresent c.outAtt)

/-- The whole `try`/`finally` of lines 140-344: whenever the body
finishes (normally or on any caught error), the cleanup phase runs. -/
def runPipeline (env : PipelineEnv) (c : CleanupEnv) :
    Option ((BodyOutcome × Bool) ×
      (Except RemoveOutcome (Nat × Bool) × Except RemoveOutcome (Nat × Bool))) :=
  (runBody env).map (fun b => (b, cleanupPhase c))

/-- The bar name MoviePy uses for the overall timeline render (line 25). -/
def timelineBar : String := "t"

/-- `StreamlitLogger.bars_callback` (lines 22-35): the published progress
fraction, `none` when nothing is published.  `bars bar` is the `total`
attribute of the named bar if present (`"total" in self.bars[bar]`). -/
def barsCallbackUpdate (bars : String → Option ℚ) (bar : String) (value : ℚ) :
    Option ℚ :=
  if bar = timelineBar then
    match bars bar with
    | some total => if 0 < total then some (min (value / total) 1) else none
    | none => none
  else none

/-- The fixed output path constant of line 268. -/
def outputPath : String := "ai_output_temp.mp4"

/-- The output path a given run writes to: every run uses the same
constant (line 268), independent of the run. -/
def outputPathOfRun (_run : Nat) : String := outputPath

/-- The temp-input path of a run: chosen by `tempfile.NamedTemporaryFile`
(line 130), i.e. supplied by the OS per run. -/
def tempInputPathOfRun (osTmpName : Nat → String) (run : Nat) : String :=
  osTmpName run

/-! Helper lemmas about the subclip-selection loop. -/

lemma selectSubclips_nil (d : ℚ) : selectSubclips d [] = [] := rfl

lemma selectSubclips_cons (d : ℚ) (p : ℚ × ℚ) (rest : List (ℚ × ℚ)) :
    selectSubclips d (p :: rest) =
      if 1 / 2 < clampEnd d p.2 - clampStart p.1 then
        (clampStart p.1, clampEnd d p.2) :: selectSubclips d rest
      else selectSubclips d rest := rfl

lemma selectSubclips_eq_filterMap (d : ℚ) (es : List (ℚ × ℚ)) :
    selectSubclips d es =
      (es.filter (fun p => decide (1 / 2 < clampEnd d p.2 - clampStart p.1))).map
        (fun p => (clampStart p.1, clampEnd d p.2)) := by
  induction es with
  | nil => rfl
  | cons p rest ih =>
    rw [selectSubclips_cons, List.filter_cons]
    by_cases h : 1 / 2 < clampEnd d p.2 - clampStart p.1
    · rw [if_pos h, if_pos (decide_eq_true h), List.map_cons, ih]
    · rw [if_neg h, if_neg ?hc, ih]
      case hc => simpa using h

lemma mem_selectSubclips {d : ℚ} {es : List (ℚ × ℚ)} {q : ℚ × ℚ}
    (hq : q ∈ selectSubclips d es) :
    ∃ p ∈ es, 1 / 2 < clampEnd d p.2 - clampStart p.1 ∧
      q = (clampStart p.1, clampEnd d p.2) := by
  induction es with
  | nil => simp [selectSubclips_nil] at hq
  | cons p rest ih =>
    rw [selectSubclips_cons] at hq
    by_cases h : 1 / 2 < clampEnd d p.2 - clampStart p.1
    · rw [if_pos h] at hq
      rcases List.mem_cons.mp hq with h1 | h2
      · exact ⟨p, List.mem_cons_self p rest, h, h1⟩
      · rcases ih h2 with ⟨r, hr, hdur, hqe⟩
        exact ⟨r, List.mem_cons_of_mem p hr, hdur, hqe⟩
    · rw [if_neg h] at hq
      rcases ih hq with ⟨r, hr, hdur, hqe⟩
      exact ⟨r, List.mem_cons_of_mem p hr, hdur, hqe⟩

lemma selectSubclips_duration {d : ℚ} {es : List (ℚ × ℚ)} {q : ℚ × ℚ}
    (hq : q ∈ selectSubclips d es) : 1 / 2 < q.2 - q.1 := by
  rcases mem_selectSubclips hq with ⟨p, -, h, rfl⟩
  simpa using h

lemma selectSubclips_bounds {d : ℚ} {es : List (ℚ × ℚ)} {q : ℚ × ℚ}
    (hq : q ∈ selectSubclips d es) :
    0 ≤ q.1 ∧ q.1 ≤ d ∧ 0 ≤ q.2 ∧ q.2 ≤ d := by
  rcases mem_selectSubclips hq with ⟨p, -, h, rfl⟩
  have h1 : (0 : ℚ) ≤ clampStart p.1 := le_max_left 0 p.1
  have h2 : clampEnd d p.2 ≤ d := min_le_left d p.2
  have h3 : clampStart p.1 < clampEnd d p.2 := by
    have : (0 : ℚ) < 1 / 2 := by norm_num
    linarith
  exact ⟨h1, le_of_lt (lt_of_lt_of_le h3 h2), le_of_lt (lt_of_le_of_lt h1 h3), h2⟩

/-- C2: a decoded entry is retained for assembly iff its clamped duration
`min(sourceDuration, end) - max(0, start)` is strictly greater than 0.5
seconds; retained segments always have positive duration (so an entry
with `end ≤ start` never reaches assembly, and its clamped image is never
in the output); clamped duration exactly 0.5 is dropped, 0.51 is kept. -/
theorem C2_duration_filter (d : ℚ) (es : List (ℚ × ℚ)) :
    (selectSubclips d es =
      (es.filter (fun p => decide (1 / 2 < clampEnd d p.2 - clampStart p.1))).map
        (fun p => (clampStart p.1, clampEnd d p.2)))
  ∧ (∀ q ∈ selectSubclips d es, 1 / 2 < q.2 - q.1 ∧ q.1 < q.2)
  ∧ (∀ p ∈ es, p.2 ≤ p.1 → (clampStart p.1, clampEnd d p.2) ∉ selectSubclips d es)
  ∧ selectSubclips 10 [(0, 1 / 2)] = []
  ∧ selectSubclips 10 [(0, 51 / 100)] = [(0, 51 / 100)] := by
  refine ⟨selectSubclips_eq_filterMap d es, ?_, ?_, ?_, ?_⟩
  · intro q hq
    have h := selectSubclips_duration hq
    constructor
    · exact h
    · have : (0 : ℚ) < 1 / 2 := by norm_num
      linarith
  · intro p hp hle hmem
    have h := selectSubclips_duration hmem
    have h1 : clampEnd d p.2 ≤ p.2 := min_le_right d p.2
    have h2 : p.1 ≤ clampStart p.1 := le_max_right 0 p.1
    simp only at h
    linarith
  · norm_num [selectSubclips_cons, selectSubclips_nil, clampStart, clampEnd]
  · norm_num [selectSubclips_cons, selectSubclips_nil, clampStart, clampEnd]

/-- Witness for C2 at the boundary entry `(0, 0.51)` with a 10-second
source: the retained segment has duration above 0.5. -/
theorem C2_duration_filter_witness :
    1 / 2 < (((0 : ℚ), (51 : ℚ) / 100)).2 - (((0 : ℚ), (51 : ℚ) / 100)).1 :=
  ((C2_duration_filter 10 [(0, 51 / 100)]).2.1 (0, 51 / 100)
    (by norm_num [selectSubclips_cons, selectSubclips_nil, clampStart, clampEnd])).1

/-- C5 counterexample: for the decoded entry `(start, end) = (20, 25)`
against a 10-second source, the clamping of line 256 leaves
`start = max(0, 20) = 20`, which does NOT lie within
`[0, sourceDuration] = [0, 10]` — the claim's "for every entry, the
clamped start and clamped end both lie in [0, sourceDuration]" fails. -/
theorem C5_clamp_counterexample :
    clampStart 20 = 20 ∧ clampEnd 10 25 = 10 ∧ ¬ clampStart 20 ≤ (10 : ℚ) := by
  norm_num [clampStart, clampEnd]

/-- C5 (amended): clamping guarantees `0 ≤ clampStart start` and
`clampEnd duration end ≤ duration`; an entry whose start is below 0 is
clamped to 0 ∈ [0, duration], an entry whose end exceeds the duration is
clamped to the duration; the drop decision is made on the clamped values;
and every RETAINED segment has both endpoints within [0, duration]. -/
theorem C5_clamping_amended (d s e : ℚ) (hd : 0 ≤ d) (es : List (ℚ × ℚ)) :
    (0 ≤ clampStart s ∧ clampEnd d e ≤ d)
  ∧ (s < 0 → clampStart s = 0 ∧ 0 ≤ clampStart s ∧ clampStart s ≤ d)
  ∧ (d < e → clampEnd d e = d ∧ 0 ≤ clampEnd d e ∧ clampEnd d e ≤ d)
  ∧ (selectSubclips d [(s, e)] =
      if 1 / 2 < clampEnd d e - clampStart s then [(clampStart s, clampEnd d e)] else [])
  ∧ (∀ q ∈ selectSubclips d es, 0 ≤ q.1 ∧ q.1 ≤ d ∧ 0 ≤ q.2 ∧ q.2 ≤ d) := by
  refine ⟨⟨le_max_left 0 s, min_le_left d e⟩, ?_, ?_, ?_, ?_⟩
  · intro hs
    have h0 : clampStart s = 0 := max_eq_left (le_of_lt hs)
    exact ⟨h0, by rw [h0], by rw [h0]; exact hd⟩
  · intro he
    have h0 : clampEnd d e = d := min_eq_left (le_of_lt he)
    exact ⟨h0, by rw [h0]; exact hd, by rw [h0]⟩
  · rw [selectSubclips_cons]
    by_cases h : 1 / 2 < clampEnd d e - clampStart s
    · simp [h, selectSubclips_nil]
    · simp [h, selectSubclips_nil]
  · intro q hq
    exact selectSubclips_bounds hq

/-- Witness for C5 (amended) at source duration 10 and the entry
`(-3, 25)`: both clamp directions hold at a concrete input. -/
theorem C5_clamping_amended_witness :
    0 ≤ clampStart (-3) ∧ clampEnd 10 25 ≤ (10 : ℚ) :=
  (C5_clamping_amended 10 (-3) 25 (by norm_num) []).1

/-! Helper lemmas about the readiness-polling loop. -/

lemma waitLoop_zero (trace : Nat → FState) (i : Nat) : waitLoop trace 0 i = none := rfl

lemma waitLoop_succ (trace : Nat → FState) (fuel i : Nat) :
    waitLoop trace (fuel + 1) i =
      if trace i = FState.processing then waitLoop trace fuel (i + 1)
      else some (isActiveState (trace i), i) := rfl

lemma waitLoop_none_of_processing (trace : Nat → FState)
    (h : ∀ i, trace i = FState.processing) : ∀ fuel i, waitLoop trace fuel i = none := by
  intro fuel
  induction fuel with
  | zero => intro i; rfl
  | succ n ih =>
    intro i
    rw [waitLoop_succ, if_pos (h i)]
    exact ih (i + 1)

lemma waitLoop_reaches (trace : Nat → FState) :
    ∀ m i fuel, (∀ j, j < m → trace (i + j) = FState.processing) →
      trace (i + m) ≠ FState.processing → m < fuel →
      waitLoop trace fuel i = some (isActiveState (trace (i + m)), i + m) := by
  intro m
  induction m with
  | zero =>
    intro i fuel _ hm hf
    obtain ⟨k, rfl⟩ : ∃ k, fuel = k + 1 := ⟨fuel - 1, by omega⟩
    rw [waitLoop_succ, if_neg (by simpa using hm)]
    simp
  | succ n ih =>
    intro i fuel h hm hf
    obtain ⟨k, rfl⟩ : ∃ k, fuel = k + 1 := ⟨fuel - 1, by omega⟩
    have h0 : trace i = FState.processing := by simpa using h 0 (Nat.succ_pos n)
    rw [waitLoop_succ, if_pos h0]
    have harg : ∀ j, j < n → trace (i + 1 + j) = FState.processing := by
      intro j hj
      have := h (j + 1) (by omega)
      have he : i + (j + 1) = i + 1 + j := by omega
      rwa [he] at this
    have hterm : trace (i + 1 + n) ≠ FState.processing := by
      have he : i + (n + 1) = i + 1 + n := by omega
      rwa [he] at hm
    have he2 : i + 1 + n = i + (n + 1) := by omega
    have := ih (i + 1) k harg hterm (by omega)
    rwa [he2] at this

/-- C6: the readiness wait re-queries the polled state once per fixed poll
interval (`pollIntervalSeconds = 5`); when the very first query is already
terminal it returns at poll index 0, i.e. without any sleep; and the
returned verdict is Ready (`true`) exactly for the ACTIVE terminal state
and Failed (`false`) exactly for the FAILED terminal state. -/
theorem C6_awaitReady_immediate (trace : Nat → FState) :
    pollIntervalSeconds = 5
  ∧ (∀ fuel i, trace i = FState.processing →
      waitLoop trace (fuel + 1) i = waitLoop trace fuel (i + 1))
  ∧ (trace 0 ≠ FState.processing → ∀ fuel,
      waitLoop trace (fuel + 1) 0 = some (isActiveState (trace 0), 0))
  ∧ (isActiveState (trace 0) = true ↔ trace 0 = FState.active)
  ∧ (trace 0 ≠ FState.processing →
      (isActiveState (trace 0) = false ↔ trace 0 = FState.failed)) := by
  refine ⟨rfl, ?_, ?_, ?_, ?_⟩
  · intro fuel i h
    rw [waitLoop_succ, if_pos h]
  · intro h fuel
    rw [waitLoop_succ, if_neg h]
  · cases h : trace 0 <;> simp [isActiveState, h]
  · intro h
    cases h0 : trace 0 <;> simp_all [isActiveState]

/-- Witness for C6 on a trace that is ACTIVE at the first query: the wait
returns Ready with zero sleeps. -/
theorem C6_awaitReady_immediate_witness :
    waitLoop (fun _ => FState.active) 1 0 = some (true, 0) := by
  have h := (C6_awaitReady_immediate (fun _ => FState.active)).2.2.1 (by simp) 0
  simpa [isActiveState] using h

/-- C7: the polling loop has no timeout.  If every poll reports
PROCESSING the loop never returns, whatever fuel it is given; and as soon
as some poll index reports a terminal state, the loop returns at the
first such index `k` — with the verdict determined by `trace k` — for
every fuel larger than `k`, so eventual terminality is the only bound on
the wait. -/
theorem C7_polling_unbounded (trace : Nat → FState) :
    ((∀ i, trace i = FState.processing) → ∀ fuel i, waitLoop trace fuel i = none)
  ∧ (∀ n, trace n ≠ FState.processing →
      ∃ k, k ≤ n ∧ (∀ j, j < k → trace j = FState.processing) ∧
        trace k ≠ FState.processing ∧
        ∀ fuel, k < fuel →
          waitLoop trace fuel 0 = some (isActiveState (trace k), k)) := by
  constructor
  · exact waitLoop_none_of_processing trace
  · intro n hn
    have hex : ∃ k, trace k ≠ FState.processing := ⟨n, hn⟩
    refine ⟨Nat.find hex, Nat.find_min' hex hn, ?_, Nat.find_spec hex, ?_⟩
    · intro j hj
      have := Nat.find_min hex hj
      simpa using this
    · intro fuel hf
      have h1 : ∀ j, j < Nat.find hex → trace (0 + j) = FState.processing := by
        intro j hj
        have := Nat.find_min hex hj
        simpa using this
      have h2 : trace (0 + Nat.find hex) ≠ FState.processing := by
        simpa using Nat.find_spec hex
      have := waitLoop_reaches trace (Nat.find hex) 0 fuel h1 h2 hf
      simpa using this

/-- Witness for C7 on a trace that reports FAILED at the first query: the
loop returns Failed at poll index 0 with fuel 1. -/
theorem C7_polling_unbounded_witness :
    waitLoop (fun _ => FState.failed) 1 0 = some (false, 0) := by
  obtain ⟨k, hk, -, -, hloop⟩ :=
    (C7_polling_unbounded (fun _ => FState.failed)).2 0 (by simp)
  have hk0 : k = 0 := Nat.le_zero.mp hk
  subst hk0
  simpa [isActiveState] using hloop 1 (by omega)

/-- C9: `bars_callback` publishes nothing for bar names other than the
timeline bar `"t"`, and nothing when the bar's total is not positive;
when the bar is the timeline bar with `total > 0` it publishes exactly
`min(value / total, 1.0)`, which lies in [0, 1] for every non-negative
value. -/
theorem C9_progress_callback (bars : String → Option ℚ) (bar : String) (value : ℚ) :
    (bar ≠ timelineBar → barsCallbackUpdate bars bar value = none)
  ∧ (bars bar = none → barsCallbackUpdate bars bar value = none)
  ∧ (∀ total, bars bar = some total → total ≤ 0 →
      barsCallbackUpdate bars bar value = none)
  ∧ (∀ total, bar = timelineBar → bars bar = some total → 0 < total →
      barsCallbackUpdate bars bar value = some (min (value / total) 1)
      ∧ (0 ≤ value → 0 ≤ min (value / total) 1 ∧ min (value / total) 1 ≤ 1)) := by
  refine ⟨?_, ?_, ?_, ?_⟩
  · intro h
    rw [barsCallbackUpdate, if_neg h]
  · intro h
    rw [barsCallbackUpdate]
    by_cases hb : bar = timelineBar
    · rw [if_pos hb, h]
    · rw [if_neg hb]
  · intro total htot hle
    rw [barsCallbackUpdate]
    by_cases hb : bar = timelineBar
    · rw [if_pos hb, htot]
      simp [not_lt.mpr hle]
    · rw [if_neg hb]
  · intro total hb htot hpos
    constructor
    · rw [barsCallbackUpdate, if_pos hb, htot]
      simp [hpos]
    · intro hv
      constructor
      · exact le_min (div_nonneg hv (le_of_lt hpos)) zero_le_one
      · exact min_le_right (value / total) 1

/-- Witness for C9 at the timeline bar with total 10 and value 5. -/
theorem C9_progress_callback_witness :
    barsCallbackUpdate (fun _ => some 10) timelineBar 5 = some (min ((5 : ℚ) / 10) 1) :=
  ((C9_progress_callback (fun _ => some 10) timelineBar 5).2.2.2 10 rfl rfl
    (by norm_num)).1

/-! Helper lemmas about model selection. -/

lemma scanKeywordsSpec_mem {avail : List String} {ks : List String} {m : String}
    (h : scanKeywordsSpec avail ks = some m) : m ∈ avail := by
  induction ks with
  | nil => simp [scanKeywordsSpec] at h
  | cons k rest ih =>
    rw [scanKeywordsSpec] at h
    cases hf : avail.find? (fun x => strContains x k) with
    | none => rw [hf] at h; exact ih h
    | some x =>
      rw [hf] at h
      cases h
      exact List.mem_of_find?_eq_some hf

lemma strTruthy_of_ne {m : String} (h : m ≠ emptyStr) : strTruthy (some m) = true := by
  simp [strTruthy, h]

lemma scanKeywords_eq_spec {avail : List String}
    (h : ∀ m ∈ avail, m ≠ emptyStr) (ks : List String) :
    scanKeywords avail ks = scanKeywordsSpec avail ks := by
  induction ks with
  | nil => rfl
  | cons k rest ih =>
    rw [scanKeywords, scanKeywordsSpec]
    cases hf : avail.find? (fun x => strContains x k) with
    | none => simpa [hf, strTruthy] using ih
    | some x =>
      have hx : x ∈ avail := List.mem_of_find?_eq_some hf
      simp [hf, strTruthy_of_ne (h x hx)]

/-- C3 counterexample: a single capability-eligible model whose name is the
empty string.  The eligible set is nonempty, so per the claim the selector
must return its first element; the code's Python truthiness checks
(`if found:`, `if not selected_model_name:`) treat the empty name as "no
selection", so the block instead takes the `NoEligibleModelError` exit
(`none`). -/
theorem C3_empty_name_counterexample :
    availableModelsOf [{ name := emptyStr, supportedGenerationMethods := [genMethod] }]
      = [emptyStr]
  ∧ selectModelName [{ name := emptyStr, supportedGenerationMethods := [genMethod] }] []
      = none := by
  constructor <;> rfl

/-- C3 (amended): provided every capability-eligible candidate has a
non-empty name, the selection block behaves exactly as the spec's
selector: restrict to generation-capable candidates, scan the priority
keywords in order returning the first candidate (in candidate order)
containing the current keyword, fall back to the first eligible
candidate, and fail with `NoEligibleModelError` (`none`) exactly when
the eligible set is empty.  (An empty-named eligible candidate breaks
the claim, see the counterexample.) -/
theorem C3_selection_amended (models : List MModel) (prio : List String)
    (h : ∀ m ∈ availableModelsOf models, m ≠ emptyStr) :
    selectModelName models prio = selectModelSpec models prio
  ∧ (selectModelName models prio = none ↔ availableModelsOf models = []) := by
  rw [selectModelName, selectModelSpec]
  rw [scanKeywords_eq_spec h prio]
  cases hs : scanKeywordsSpec (availableModelsOf models) prio with
  | some m =>
    have hm : m ∈ availableModelsOf models := scanKeywordsSpec_mem hs
    have ht : strTruthy (some m) = true := strTruthy_of_ne (h m hm)
    simp only [hs, ht, if_pos, if_true]
    constructor
    · trivial
    · simp only [Option.some_ne_none, false_iff]
      exact List.ne_nil_of_mem hm
  | none =>
    simp only [hs, strTruthy, Bool.false_eq_true, if_false]
    cases ha : availableModelsOf models with
    | nil => simp [strTruthy]
    | cons a rest =>
      have hat : strTruthy (some a) = true :=
        strTruthy_of_ne (h a (ha ▸ List.mem_cons_self a rest))
      simp [hat]
      exact h a (ha ▸ List.mem_cons_self a rest)

/-- Witness for C3 (amended) on the spec's own example candidates
(section 8): the code selector agrees with the spec selector and picks
`gemini-2.5-flash`. -/
theorem C3_selection_amended_witness :
    selectModelName
        [{ name := "gemini-1.5-pro", supportedGenerationMethods := [genMethod] },
         { name := "gemini-2.5-flash", supportedGenerationMethods := [genMethod] }]
        priorityList
      = selectModelSpec
        [{ name := "gemini-1.5-pro", supportedGenerationMethods := [genMethod] },
         { name := "gemini-2.5-flash", supportedGenerationMethods := [genMethod] }]
        priorityList
  ∧ selectModelName
        [{ name := "gemini-1.5-pro", supportedGenerationMethods := [genMethod] },
         { name := "gemini-2.5-flash", supportedGenerationMethods := [genMethod] }]
        priorityList
      = some "gemini-2.5-flash" :=
  ⟨(C3_selection_amended
      [{ name := "gemini-1.5-pro", supportedGenerationMethods := [genMethod] },
       { name := "gemini-2.5-flash", supportedGenerationMethods := [genMethod] }]
      priorityList (by decide)).1,
   by decide⟩

/-! Helper lemmas about the parse stage. -/

lemma parseStage_none (d : ℚ) : parseStage none d = ParseOutcome.malformedOutput := rfl

lemma parseStage_not_iterable {j : Json} (d : ℚ) (h : asIterable j = none) :
    parseStage (some j) d = ParseOutcome.genericError := by
  rw [parseStage, h]

lemma parseStage_bad_entries {j : Json} {ts : List Json} (d : ℚ)
    (h1 : asIterable j = some ts) (h2 : allEntryFloats ts = none) :
    parseStage (some j) d = ParseOutcome.genericError := by
  simp only [parseStage, h1, h2]

lemma parseStage_entries {j : Json} {ts : List Json} {es : List (ℚ × ℚ)} (d : ℚ)
    (h1 : asIterable j = some ts) (h2 : allEntryFloats ts = some es) :
    parseStage (some j) d =
      match selectSubclips d es with
      | [] => ParseOutcome.noUsableSegments
      | q :: qs => ParseOutcome.ok (q :: qs) := by
  simp only [parseStage, h1, h2]

lemma parseStage_some_ne_malformed (j : Json) (d : ℚ) :
    parseStage (some j) d ≠ ParseOutcome.malformedOutput := by
  cases h1 : asIterable j with
  | none => rw [parseStage_not_iterable d h1]; simp
  | some ts =>
    cases h2 : allEntryFloats ts with
    | none => rw [parseStage_bad_entries d h1 h2]; simp
    | some es =>
      rw [parseStage_entries d h1 h2]
      cases selectSubclips d es <;> simp

/-- C4 counterexample: the raw text `"[1]"` is valid JSON, so `json.loads`
succeeds (decoding of the fence-stripped text does NOT fail), yet the
entry `1` is not an object with `start`/`end` — the stage raises a
`TypeError` handled by the generic `except Exception` of line 303, not
the `json.JSONDecodeError` handler ("MalformedOutputError") of line 237.
So a shape-level decode failure does not yield `MalformedOutputError`,
contradicting the claim's "any decode failure ... yields this error". -/
theorem C4_shape_counterexample :
    parseModelOutput (fun _ => some (Json.arr [Json.num 1])) "[1]" 10
      = ParseOutcome.genericError
  ∧ ParseOutcome.genericError ≠ ParseOutcome.malformedOutput := by
  constructor
  · rfl
  · simp

/-- C4 (amended): `MalformedOutputError` is raised iff `json.loads` on the
fence-stripped text fails (`JSONDecodeError`).  Entries that decode as
JSON but do not match the expected shape (non-iterable top level, or an
entry without convertible numeric `start`/`end`) raise a generic
stage error caught by the outer handler — not `MalformedOutputError`.
When decoding and shape validation succeed, the stage fails with the
distinct user-retryable `NoUsableSegmentsError` exactly when the
sanitized segment list is empty — never with `MalformedOutputError`. -/
theorem C4_parse_errors_amended (decode : String → Option Json) (raw : String) (d : ℚ) :
    (parseModelOutput decode raw d = ParseOutcome.malformedOutput ↔
      decode (cleanJson raw) = none)
  ∧ (∀ j, decode (cleanJson raw) = some j → asIterable j = none →
      parseModelOutput decode raw d = ParseOutcome.genericError)
  ∧ (∀ j ts, decode (cleanJson raw) = some j → asIterable j = some ts →
      allEntryFloats ts = none →
      parseModelOutput decode raw d = ParseOutcome.genericError)
  ∧ (∀ j ts es, decode (cleanJson raw) = some j → asIterable j = some ts →
      allEntryFloats ts = some es →
      (parseModelOutput decode raw d = ParseOutcome.noUsableSegments ↔
        selectSubclips d es = [])) := by
  refine ⟨?_, ?_, ?_, ?_⟩
  · rw [parseModelOutput]
    cases hd : decode (cleanJson raw) with
    | none => simp [parseStage_none]
    | some j =>
      simp only [Option.some_ne_none, iff_false]
      exact parseStage_some_ne_malformed j d
  · intro j hj hit
    rw [parseModelOutput, hj]
    exact parseStage_not_iterable d hit
  · intro j ts hj hit hent
    rw [parseModelOutput, hj]
    exact parseStage_bad_entries d hit hent
  · intro j ts es hj hit hent
    rw [parseModelOutput, hj, parseStage_entries d hit hent]
    cases hsel : selectSubclips d es with
    | nil => simp
    | cons q qs => simp

/-- Witness for C4 (amended): the model answered with the valid JSON list
`[]` — decoding succeeds, the sanitized list is empty, and the stage
reports `NoUsableSegmentsError`, not `MalformedOutputError`. -/
theorem C4_parse_errors_amended_witness :
    parseModelOutput (fun _ => some (Json.arr [])) "[]" 10
      = ParseOutcome.noUsableSegments :=
  ((C4_parse_errors_amended (fun _ => some (Json.arr [])) "[]" 10).2.2.2
    (Json.arr []) [] [] rfl rfl rfl).mpr rfl

/-- A run in which the upload succeeds, the file becomes ACTIVE, a model
is found and invoked, but the model's reply is not JSON (`json.loads`
fails), used as a concrete error path. -/
def malformedRunEnv : PipelineEnv where
  uploadOk := true
  fileTrace := fun _ => FState.active
  fuel := 1
  models := [{ name := "gemini-2.5-flash", supportedGenerationMethods := [genMethod] }]
  generateOk := true
  responseText := "oops"
  decode := fun _ => none
  duration := 10
  renderOk := true

/-- C1 counterexample: a run that successfully uploaded the source video
(`uploadOk = true`) and then failed with malformed model output finishes
its body WITHOUT ever issuing `genai.delete_file` — the deletion call of
lines 296-301 sits on the success path inside the `try` block, and the
`finally` block of lines 306-344 never touches the remote handle.  This
refutes "the handle-deletion call is issued on every error path". -/
theorem C1_no_delete_on_error_counterexample :
    malformedRunEnv.uploadOk = true
  ∧ runBody malformedRunEnv = some (BodyOutcome.malformedOutput, false) := by
  constructor <;> rfl

/-- C1 (amended): the remote-handle deletion request (`genai.delete_file`,
lines 296-301, itself wrapped in a swallowing `try`/`except`) is issued
exactly when the whole body succeeds; on every error path — upload
failure, remote-processing failure, no eligible model, model invocation
failure, malformed output, bad entry shape, no usable segments, render
failure — no deletion of the remote handle is requested, and the
`finally` cleanup only removes local files. -/
theorem C1_delete_only_on_success (env : PipelineEnv) (o : BodyOutcome) (issued : Bool)
    (h : runBody env = some (o, issued)) :
    issued = true ↔ o = BodyOutcome.success := by
  unfold runBody at h
  repeat' split at h
  all_goals
    first
      | (injection h with h1
         injection h1 with h2 h3
         subst h2
         subst h3
         decide)
      | exact Option.noConfusion h

/-- Witness for C1 (amended) on the malformed-output run: the deletion
flag is `false` and the outcome is not `success`. -/
theorem C1_delete_only_on_success_witness :
    (false = true) ↔ (BodyOutcome.malformedOutput = BodyOutcome.success) :=
  C1_delete_only_on_success malformedRunEnv BodyOutcome.malformedOutput false rfl

/-! Helper lemmas about the cleanup phase. -/

lemma removeWithRetry_absent (att : Nat → RemoveOutcome) :
    removeWithRetry false att = Except.ok (0, false) := rfl

lemma removeWithRetry_first_ok {att : Nat → RemoveOutcome} (h : att 0 = RemoveOutcome.ok) :
    removeWithRetry true att = Except.ok (1, false) := by
  simp [removeWithRetry, tryRemove, h]

lemma removeWithRetry_perm {att : Nat → RemoveOutcome}
    (h : att 0 = RemoveOutcome.permError) :
    removeWithRetry true att = Except.ok (2, true) := by
  cases h1 : att 1 <;> simp [removeWithRetry, tryRemove, h, h1]

lemma removeWithRetry_other {att : Nat → RemoveOutcome}
    (h : att 0 = RemoveOutcome.otherError) :
    removeWithRetry true att = Except.ok (1, false) := by
  simp [removeWithRetry, tryRemove, h]

lemma removeWithRetry_never_raises (present : Bool) (att : Nat → RemoveOutcome) :
    ∃ r, removeWithRetry present att = Except.ok r := by
  cases present with
  | false => exact ⟨(0, false), removeWithRetry_absent att⟩
  | true =>
    cases h : att 0 with
    | ok => exact ⟨(1, false), removeWithRetry_first_ok h⟩
    | permError => exact ⟨(2, true), removeWithRetry_perm h⟩
    | otherError => exact ⟨(1, false), removeWithRetry_other h⟩

/-- C8: whenever the body finishes — in particular after a
malformed-model-output error — the CLEANUP phase runs; deleting the local
temporary input file never propagates a failure (the result is always
`Except.ok`); a `PermissionError` on the first `os.remove` causes a
1-second sleep and exactly one retry whose own failure is swallowed
(2 attempts, slept = true); any other first-attempt outcome makes exactly
one attempt with no retry. -/
theorem C8_cleanup_retry (env : PipelineEnv) (c : CleanupEnv) (o : BodyOutcome)
    (issued : Bool) (h : runBody env = some (o, issued)) :
    runPipeline env c = some ((o, issued), cleanupPhase c)
  ∧ (∃ r, removeWithRetry c.tempPresent c.tempAtt = Except.ok r)
  ∧ (c.tempPresent = true → c.tempAtt 0 = RemoveOutcome.permError →
      removeWithRetry c.tempPresent c.tempAtt = Except.ok (2, true))
  ∧ (c.tempPresent = true → c.tempAtt 0 = RemoveOutcome.ok →
      removeWithRetry c.tempPresent c.tempAtt = Except.ok (1, false))
  ∧ (c.tempPresent = true → c.tempAtt 0 = RemoveOutcome.otherError →
      removeWithRetry c.tempPresent c.tempAtt = Except.ok (1, false)) := by
  refine ⟨?_, removeWithRetry_never_raises c.tempPresent c.tempAtt, ?_, ?_, ?_⟩
  · rw [runPipeline, h]
    rfl
  · intro hp ha
    rw [hp]
    exact removeWithRetry_perm ha
  · intro hp ha
    rw [hp]
    exact removeWithRetry_first_ok ha
  · intro hp ha
    rw [hp]
    exact removeWithRetry_other ha

/-- Witness for C8 on the malformed-output run with the temp file present
and locked at the first attempt: cleanup runs and the retried deletion
gives up silently after exactly two attempts. -/
theorem C8_cleanup_retry_witness :
    removeWithRetry true (fun _ => RemoveOutcome.permError) = Except.ok (2, true) :=
  (C8_cleanup_retry malformedRunEnv
      { tempPresent := true, outputPresent := true,
        tempAtt := fun _ => RemoveOutcome.permError,
        outAtt := fun _ => RemoveOutcome.ok }
      BodyOutcome.malformedOutput false rfl).2.2.1 rfl rfl

/-- C10 (code defect documented by the spec, section 9): the output path
is the fixed constant `"ai_output_temp.mp4"` (line 268) for EVERY run, so
any two concurrent runs share the same mutable local output path — the
required two-run distinctness fails. -/
theorem C10_output_path_collision :
    outputPathOfRun 0 = outputPathOfRun 1 ∧ outputPathOfRun 0 = outputPath :=
  ⟨rfl, rfl⟩

end StreamlitApp
